import Mathlib

/-!
Verification of the source-fact extraction, code assembly, SQL generation and
sqlc-configuration merging logic of the repository.

The Go functions are shallowly embedded: each Go AST notion used by the code is
an inductive type, and each function is translated declaration by declaration.
Machine I/O (reading the file, `printer.Fprint`) is abstracted by carrying the
pretty-printed text of every declaration as a `src : String` field, and file
writes are modelled by explicit before/after file-state functions.
-/

namespace LlmSqlc

/-- The `GenDecl.Tok` of a Go top-level generic declaration
(`token.IMPORT`, `token.CONST`, `token.TYPE`, `token.VAR`). -/
inductive Tok where
  | timport
  | tconst
  | ttype
  | tvar
deriving DecidableEq, Repr

/-- The shape of a `TypeSpec`'s underlying type, as far as the code inspects it:
`*ast.InterfaceType` (with, for each method field, the list of declared names),
`*ast.StructType`, or anything else. Embedded interfaces are fields with an
empty name list. -/
inductive GoType where
  | interfaceType (fields : List (List String))
  | structType
  | otherType
deriving DecidableEq, Repr

/-- An `ast.TypeSpec`: a named type declaration entry. -/
structure TypeSpec where
  name : String
  ty : GoType
deriving DecidableEq, Repr

/-- A value expression, as far as the code inspects it: an `*ast.CompositeLit`
whose `Type` is an `*ast.Ident` (carrying its name; `none` when the literal's
type is not a plain identifier), or any other expression (for example the
pointer literal `&T` applied to a composite, which is an `*ast.UnaryExpr`). -/
inductive Expr where
  | compositeLit (tyName : Option String)
  | otherExpr
deriving DecidableEq, Repr

/-- An `ast.ValueSpec` of a `var` declaration: declared names, the declared
type when it is a plain `*ast.Ident` (`none` otherwise), and the initializer
expressions. -/
structure ValueSpec where
  names : List String
  tyName : Option String
  values : List Expr
deriving DecidableEq, Repr

/-- One entry of a `GenDecl.Specs` list. -/
inductive Spec where
  | typeSpec (ts : TypeSpec)
  | valueSpec (vs : ValueSpec)
  | importSpec
  | otherSpec
deriving DecidableEq, Repr

/-- A Go top-level declaration. `src` is the `printer.Fprint` text of the whole
declaration and `endOff` the byte offset of its source end position. -/
inductive Decl where
  | genDecl (tok : Tok) (specs : List Spec) (src : String) (endOff : Nat)
  | funcDecl (fname : String) (src : String) (endOff : Nat)
  | badDecl (src : String) (endOff : Nat)
deriving DecidableEq, Repr

/-- The printed text of a declaration. -/
def Decl.src : Decl → String
  | .genDecl _ _ s _ => s
  | .funcDecl _ s _ => s
  | .badDecl s _ => s

/-- The end offset of a declaration. -/
def Decl.endOff : Decl → Nat
  | .genDecl _ _ _ e => e
  | .funcDecl _ _ e => e
  | .badDecl _ e => e

/-- Errors of `ExtractFirstInterface` (parse errors happen before the AST
stage modelled here). -/
inductive ExtractErr where
  | noInterfaceFound
  | implNotFound
  | assertionNotFound
deriving DecidableEq, Repr

/-- The quadruple returned by `ExtractFirstInterface`. -/
structure Extracted where
  ifaceSrc : String
  methods : List String
  implStructSrc : String
  varCheckSrc : String
deriving DecidableEq, Repr

/-- Inner loop of the first scan: the first `*ast.TypeSpec` of a `GenDecl`
whose underlying type is an interface kind. -/
def findInterfaceSpec : List Spec → Option TypeSpec
  | [] => none
  | .typeSpec ts :: rest =>
    match ts.ty with
    | .interfaceType _ => some ts
    | _ => findInterfaceSpec rest
  | _ :: rest => findInterfaceSpec rest

/-- Method names of an interface `TypeSpec`: one name per identifier, in
member-declaration order (`for field in it.Methods.List, for name in
field.Names`). -/
def methodNamesOf (ts : TypeSpec) : List String :=
  match ts.ty with
  | .interfaceType fields => fields.flatten
  | _ => []

/-- First scan of `ExtractFirstInterface`: the first `token.TYPE` `GenDecl`
holding an interface-kind `TypeSpec` yields that spec together with the printed
text of the whole `GenDecl`. -/
def findFirstInterface : List Decl → Option (String × TypeSpec)
  | [] => none
  | .genDecl .ttype specs src _ :: rest =>
    match findInterfaceSpec specs with
    | some ts => some (src, ts)
    | none => findFirstInterface rest
  | _ :: rest => findFirstInterface rest

/-- Does a `TYPE` spec declare `target` with struct kind? -/
def specIsStructNamed (target : String) : Spec → Bool
  | .typeSpec ts => ts.name == target && (match ts.ty with
    | .structType => true
    | _ => false)
  | _ => false

/-- Second scan of `ExtractFirstInterface`: the first `token.TYPE` `GenDecl`
holding a struct-kind `TypeSpec` named `target` yields its printed text. -/
def findImplStruct (target : String) : List Decl → Option String
  | [] => none
  | .genDecl .ttype specs src _ :: rest =>
    if specs.any (specIsStructNamed target) then some src
    else findImplStruct target rest
  | _ :: rest => findImplStruct target rest

/-- Does a `ValueSpec` have the conformance-assertion shape: a discarded name
`_`, declared type identifier equal to `ifaceName`, and first initializer a
composite literal whose type identifier is `target`? -/
def valueSpecIsAssertion (ifaceName target : String) (vs : ValueSpec) : Bool :=
  vs.names.any (· == "_") && vs.tyName == some ifaceName &&
    (match vs.values with
     | .compositeLit (some n) :: _ => n == target
     | _ => false)

/-- Does a `VAR` spec entry match the conformance assertion? -/
def specIsAssertion (ifaceName target : String) : Spec → Bool
  | .valueSpec vs => valueSpecIsAssertion ifaceName target vs
  | _ => false

/-- Third scan of `ExtractFirstInterface`: the first `token.VAR` `GenDecl`
holding an assertion-shaped `ValueSpec` yields its printed text. -/
def findVarCheck (ifaceName target : String) : List Decl → Option String
  | [] => none
  | .genDecl .tvar specs src _ :: rest =>
    if specs.any (specIsAssertion ifaceName target) then some src
    else findVarCheck ifaceName target rest
  | _ :: rest => findVarCheck ifaceName target rest

/-- `ExtractFirstInterface`, on the parsed declaration list of one file. -/
def ExtractFirstInterface (decls : List Decl) : Except ExtractErr Extracted :=
  match findFirstInterface decls with
  | none => .error .noInterfaceFound
  | some (ifaceSrc, ts) =>
    let target := ts.name ++ "Impl"
    match findImplStruct target decls with
    | none => .error .implNotFound
    | some implStructSrc =>
      match findVarCheck ts.name target decls with
      | none => .error .assertionNotFound
      | some varCheckSrc =>
        .ok ⟨ifaceSrc, methodNamesOf ts, implStructSrc, varCheckSrc⟩

/-- Does a `TYPE` spec entry declare an interface-kind type? -/
def specIsInterface : Spec → Bool
  | .typeSpec ts =>
    match ts.ty with
    | .interfaceType _ => true
    | _ => false
  | _ => false

/-- `Except.isOk` as a plain function. -/
def exceptIsOk : Except ε α → Bool
  | .ok _ => true
  | .error _ => false

/-- Does a declaration contain an interface-kind type spec? -/
def declHasInterface : Decl → Bool
  | .genDecl .ttype specs _ _ => specs.any specIsInterface
  | _ => false

/-- Does the file contain a struct-kind type declaration named `target`? -/
def hasImplStruct (target : String) (decls : List Decl) : Bool :=
  decls.any (fun d =>
    match d with
    | .genDecl .ttype specs _ _ => specs.any (specIsStructNamed target)
    | _ => false)

/-- Does the file contain a conformance assertion for `ifaceName`/`target`? -/
def hasAssertion (ifaceName target : String) (decls : List Decl) : Bool :=
  decls.any (fun d =>
    match d with
    | .genDecl .tvar specs _ _ => specs.any (specIsAssertion ifaceName target)
    | _ => false)

/-! ## EntityCatalogScanner (`ExtractEntityDefinitions`) -/

/-- A scanned regular file: its base name (`d.Name()`), its path, and its
parsed top-level declarations. Directories are already excluded (the walk
skips them). -/
structure SrcFile where
  name : String
  path : String
  decls : List Decl
deriving DecidableEq, Repr

/-- The `EntityDefinition` record: file path and extracted code. -/
structure EntityDefinition where
  FileName : String
  Code : String
deriving DecidableEq, Repr

/-- `strings.HasSuffix` over the character list (Go works on the byte
sequence; over ASCII text the two coincide). -/
def goEndsWith (s suf : String) : Bool :=
  List.isSuffixOf suf.data s.data

/-- `strings.TrimSuffix`: drop the suffix when present, else unchanged. -/
def trimSuffixGo (s suf : String) : String :=
  if List.isSuffixOf suf.data s.data then
    ⟨s.data.take (s.data.length - suf.data.length)⟩
  else s

/-- `strings.TrimPrefix`: drop the prefix when present, else unchanged. -/
def trimPrefixGo (s pre : String) : String :=
  if List.isPrefixOf pre.data s.data then ⟨s.data.drop pre.data.length⟩ else s

/-- `strings.TrimSpace`: strip leading and trailing whitespace. -/
def goTrim (s : String) : String :=
  ⟨((s.data.dropWhile Char.isWhitespace).reverse.dropWhile
    Char.isWhitespace).reverse⟩

/-- `strings.Split(s, "\n")` on the character list: split at every newline,
keeping empty segments (splitting the empty string yields one empty
segment). -/
def splitNlData : List Char → List (List Char)
  | [] => [[]]
  | c :: cs =>
    if c = '\n' then [] :: splitNlData cs
    else
      match splitNlData cs with
      | [] => [[c]]
      | l :: ls => (c :: l) :: ls

/-- `strings.Split(s, "\n")`. -/
def goSplitNl (s : String) : List String :=
  (splitNlData s.data).map (fun cs => ⟨cs⟩)

/-- File filter of the walk: `.go` suffix required, `_test.go` excluded. -/
def isGoSourceFile (name : String) : Bool :=
  goEndsWith name ".go" && !(goEndsWith name "_test.go")

/-- `strings.ToUpper(baseName[:1]) + baseName[1:]`: upper-case the first
character of the base name. -/
def entityNameOf (base : String) : String :=
  match base.data with
  | [] => ""
  | c :: cs => String.mk (c.toUpper :: cs)

/-- Does the file declare a type named `ename` (any kind) at top level? -/
def hasEntityType (ename : String) (decls : List Decl) : Bool :=
  decls.any (fun d =>
    match d with
    | .genDecl .ttype specs _ _ => specs.any (fun s =>
        match s with
        | .typeSpec ts => ts.name == ename
        | _ => false)
    | _ => false)

/-- The constructor search: the loop overwrites `newFuncDecl` on every match,
so the last top-level function named `fname` wins. -/
def findNewFunc (fname : String) (decls : List Decl) : Option Decl :=
  decls.foldl (fun acc d =>
    match d with
    | .funcDecl n _ _ => if n == fname then some d else acc
    | _ => acc) none

/-- Is the declaration an import declaration (`GenDecl` with `token.IMPORT`)? -/
def isImportDecl : Decl → Bool
  | .genDecl .timport _ _ _ => true
  | _ => false

/-- The record's code: every declaration whose end offset is at or before
`cutoff`, import declarations excluded, printed in order, each followed by a
newline. -/
def entityCode (decls : List Decl) (cutoff : Nat) : String :=
  String.join (((decls.filter (fun d => decide (d.endOff ≤ cutoff) &&
    !(isImportDecl d))).map (fun d => d.src ++ "\n")))

/-- Per-file body of the `WalkDir` callback of `ExtractEntityDefinitions`
(after the I/O and parse steps): `none` means the file is skipped without
error. -/
def extractEntityFromFile (f : SrcFile) : Option EntityDefinition :=
  if !(isGoSourceFile f.name) then none
  else
    let base := trimSuffixGo f.name ".go"
    if base == "" then none
    else
      let ename := entityNameOf base
      if hasEntityType ename f.decls then
        match findNewFunc ("New" ++ ename) f.decls with
        | some nf => some ⟨f.path, entityCode f.decls nf.endOff⟩
        | none => none
      else none

/-- `ExtractEntityDefinitions` over the walked file list (walk order). -/
def ExtractEntityDefinitions (files : List SrcFile) : List EntityDefinition :=
  files.filterMap extractEntityFromFile

/-- Number of catalog records attributed to path `p`. -/
def recordCountFor (recs : List EntityDefinition) (p : String) : Nat :=
  recs.countP (fun r => r.FileName == p)

/-! ## CodeAssembler (`generateProgramLogic` / `aggregateAndFormatOutput`) -/

/-- The oracle's structured response for one method. -/
structure GenerationResponse where
  Code : String
  Import : String
  DocComment : String
deriving DecidableEq, Repr

/-- Splitting a fragment's `Import` block into lines: trim the block, strip a
leading `import (` and a trailing `)`, split on newlines, trim each line and
drop the blank ones. -/
def parseImportBlock (s : String) : List String :=
  let b := trimSuffixGo (trimPrefixGo (goTrim s) "import (") ")"
  ((goSplitNl b).map goTrim).filter (fun l => l != "")

/-- `allMethodImports`: each fragment's parsed import lines, concatenated in
fragment order. -/
def collectImports : List GenerationResponse → List String
  | [] => []
  | r :: rs => parseImportBlock r.Import ++ collectImports rs

/-- The key set of the Go `map[string]struct{}` used for deduplication: the
distinct elements of the list (order irrelevant here, the result is sorted
right after). -/
def dedupKeys : List String → List String
  | [] => []
  | s :: rest =>
    let d := dedupKeys rest
    if s ∈ d then d else s :: d

/-- `sort.Strings` on the deduplicated key list: ascending lexicographic
order. -/
def dedupSortImports (l : List String) : List String :=
  (dedupKeys l).insertionSort (· ≤ ·)

/-- The final import block: `import (`, one tab-indented line per surviving
import, `)`. -/
def buildImportBlock (l : List String) : String :=
  "import (\n" ++ String.join (l.map (fun imp => "\t" ++ imp ++ "\n")) ++ ")\n"

/-- One fragment's contribution to the assembled artifact: the doc comment
(only when non-blank after trimming) followed by the code and a blank line. -/
def renderFragment (r : GenerationResponse) : String :=
  (if goTrim r.DocComment != "" then r.DocComment ++ "\n" else "") ++
    r.Code ++ "\n\n"

/-- The fragment section of the artifact, in the order of the collected
responses. -/
def fragmentsSection (rs : List GenerationResponse) : String :=
  String.join (rs.map renderFragment)

/-- The assembled artifact before the external formatter: package clause,
deduplicated sorted import block, interface, struct, assertion, fragments. -/
def buildFinalCode (pkgName ifaceSrc implStructSrc varCheckSrc : String)
    (rs : List GenerationResponse) (allMethodImports : List String) : String :=
  "package " ++ pkgName ++ "\n\n" ++
    buildImportBlock (dedupSortImports allMethodImports) ++ "\n" ++
    ifaceSrc ++ "\n\n" ++ implStructSrc ++ "\n\n" ++ varCheckSrc ++ "\n\n" ++
    fragmentsSection rs

/-- Errors of a program-generation run. -/
inductive GenErr where
  | extract (e : ExtractErr)
  | oracleErr (method : String)
  | formatterErr
deriving DecidableEq, Repr

/-- The per-method loop of `generateProgramLogic`: invoke the oracle once per
method, in method order; abort on the first failure; collect responses in
method order and import lines in the same order. -/
def runGeneration (oracle : String → Except GenErr GenerationResponse) :
    List String → Except GenErr (List GenerationResponse × List String)
  | [] => .ok ([], [])
  | m :: rest =>
    match oracle m with
    | .error e => .error e
    | .ok r =>
      match runGeneration oracle rest with
      | .error e => .error e
      | .ok (rs, imps) => .ok (r :: rs, parseImportBlock r.Import ++ imps)

/-- `generateProgramLogic`: extract, generate every method, assemble, hand to
the external formatter; the result is the text to be written, or an error. -/
def generateProgramRun (oracle : String → Except GenErr GenerationResponse)
    (fmtExternal : String → Except GenErr String) (pkgName : String)
    (decls : List Decl) : Except GenErr String :=
  match ExtractFirstInterface decls with
  | .error e => .error (.extract e)
  | .ok r =>
    match runGeneration oracle r.methods with
    | .error e => .error e
    | .ok (rs, imps) =>
      fmtExternal (buildFinalCode pkgName r.ifaceSrc r.implStructSrc
        r.varCheckSrc rs imps)

/-- The target source file after the run: overwritten only on full success. -/
def programFileState (original : String) (res : Except GenErr String) :
    String :=
  match res with
  | .ok c => c
  | .error _ => original

/-! ## SQL generation entry point (`generateSQLLogic`) -/

/-- Errors of a SQL-generation run. -/
inductive SqlErr where
  | extract (e : ExtractErr)
  | noMethodsFound
  | oracleErr (method : String)
deriving DecidableEq, Repr

/-- `extractInterfaceData` of `SQLGenerator`: wrap `ExtractFirstInterface` and
reject an interface with zero methods. -/
def extractInterfaceDataSQL (decls : List Decl) :
    Except SqlErr (String × List String) :=
  match ExtractFirstInterface decls with
  | .error e => .error (.extract e)
  | .ok r =>
    if r.methods.isEmpty then .error .noMethodsFound
    else .ok (r.ifaceSrc, r.methods)

/-- The per-method SQL loop: one oracle call per method, appending all
returned queries; abort on the first failure. -/
def runSQLGeneration (oracle : String → Except SqlErr (List String)) :
    List String → Except SqlErr (List String)
  | [] => .ok []
  | m :: rest =>
    match oracle m with
    | .error e => .error e
    | .ok qs =>
      match runSQLGeneration oracle rest with
      | .error e => .error e
      | .ok rests => .ok (qs ++ rests)

/-- `generateSQLLogic` up to the query list that gets written to the output
file (the sqlc.yml update that follows is modelled separately). -/
def generateSQLLogic (oracle : String → Except SqlErr (List String))
    (decls : List Decl) : Except SqlErr (List String) :=
  match extractInterfaceDataSQL decls with
  | .error e => .error e
  | .ok (_, methods) => runSQLGeneration oracle methods

/-- The generated-query output file after the run: `none` when it was never
written; on success it holds the queries joined by blank lines. -/
def sqlOutputFileState (original : Option String)
    (res : Except SqlErr (List String)) : Option String :=
  match res with
  | .ok qs => some (String.intercalate "\n\n" qs)
  | .error _ => original

/-! ## ConfigMerger (`updateSqlcConfig`) -/

/-- A parsed YAML value as `yaml.Unmarshal` produces it into `interface{}`:
strings, lists, string-keyed mappings, or anything else. -/
inductive YamlVal where
  | str (s : String)
  | list (xs : List YamlVal)
  | map (entries : List (String × YamlVal))
  | other
deriving Repr

/-- Lookup of a key in a parsed mapping. -/
def lookupKey (k : String) : List (String × YamlVal) → Option YamlVal
  | [] => none
  | (k', v) :: rest => if k' == k then some v else lookupKey k rest

/-- Map update `m[k] = v`: replace the first binding of `k`, appending when
absent (YAML mappings have unique keys). -/
def setKey (k : String) (v : YamlVal) :
    List (String × YamlVal) → List (String × YamlVal)
  | [] => [(k, v)]
  | (k', v') :: rest =>
    if k' == k then (k, v) :: rest else (k', v') :: setKey k v rest

/-- Is this list element the string `path`? Membership is checked by exact
string equality. -/
def isRefStr (path : String) : YamlVal → Bool
  | .str s => s == path
  | _ => false

/-- Number of occurrences of the reference string in a queries list. -/
def countRef (path : String) (qs : List YamlVal) : Nat :=
  qs.countP (isRefStr path)

/-- The queries-list update: append the path when no element equals it. -/
def updateQueries (path : String) (qs : List YamlVal) : List YamlVal :=
  if qs.any (isRefStr path) then qs else qs ++ [.str path]

/-- The per-block update: blocks that are not mappings, or whose `queries` key
is not a list, are skipped silently. -/
def updateBlock (path : String) (b : YamlVal) : YamlVal :=
  match b with
  | .map entries =>
    match lookupKey "queries" entries with
    | some (.list qs) =>
      .map (setKey "queries" (.list (updateQueries path qs)) entries)
    | _ => b
  | _ => b

/-- Errors of `updateSqlcConfig` after a successful read and parse. -/
inductive ConfigErr where
  | invalidStructure
deriving DecidableEq, Repr

/-- `updateSqlcConfig` on the parsed document: the top-level `sql` key must
map to a list, else the merge fails hard before any write; otherwise every
block is updated. -/
def updateSqlcConfig (path : String) (cfg : List (String × YamlVal)) :
    Except ConfigErr (List (String × YamlVal)) :=
  match lookupKey "sql" cfg with
  | some (.list blocks) =>
    .ok (setKey "sql" (.list (blocks.map (updateBlock path))) cfg)
  | _ => .error .invalidStructure

/-- Is the top-level `sql` key present and list-shaped? -/
def sqlKeyIsList (cfg : List (String × YamlVal)) : Bool :=
  match lookupKey "sql" cfg with
  | some (.list _) => true
  | _ => false

/-- The configuration file on disk after a merge attempt, for any
serializer `ser` (`yaml.Marshal` is deterministic): written back only when the
merge succeeded. -/
def configMergeFileState (ser : List (String × YamlVal) → String)
    (original : String) (path : String) (cfg : List (String × YamlVal)) :
    String :=
  match updateSqlcConfig path cfg with
  | .ok cfg' => ser cfg'
  | .error _ => original

/-! ## Concrete inputs used by the witnesses -/

/-- A non-interface declaration preceding the first interface. -/
def c1Pre : List Decl := [.funcDecl "helper" "func helper()" 10]

/-- The first interface-bearing declaration of the witness file. -/
def c1Iface : Decl :=
  .genDecl .ttype [.typeSpec ⟨"Store", .interfaceType [["Get"], ["Put"]]⟩]
    "type Store interface" 40

/-- A later interface declaration, ignored by first-match-wins. -/
def c1Post : List Decl :=
  [.genDecl .ttype [.typeSpec ⟨"Other", .interfaceType [["X"]]⟩]
    "type Other interface" 80]

/-- A file with type declarations but no interface-kind one. -/
def c1NoIface : List Decl :=
  [.funcDecl "helper" "func helper()" 10,
   .genDecl .ttype [.typeSpec ⟨"Foo", .structType⟩] "type Foo struct" 30]

/-- A file whose `StoreImpl` type declaration is not struct-kind. -/
def c9Decls : List Decl :=
  [.genDecl .ttype [.typeSpec ⟨"Store", .interfaceType [["Get"]]⟩]
    "type Store interface" 20,
   .genDecl .ttype [.typeSpec ⟨"StoreImpl", .otherType⟩] "type StoreImpl int" 40]

/-- A file whose conformance assertion uses a pointer literal, which is an
`*ast.UnaryExpr`, not a composite literal. -/
def c8Decls : List Decl :=
  [.genDecl .ttype [.typeSpec ⟨"Store", .interfaceType [["Get"]]⟩]
    "type Store interface" 20,
   .genDecl .ttype [.typeSpec ⟨"StoreImpl", .structType⟩]
    "type StoreImpl struct" 40,
   .genDecl .tvar [.valueSpec ⟨["_"], some "Store", [.otherExpr]⟩]
    "var _ Store = ptr lit" 60]

/-- A file whose first interface declares zero methods but has a matching
implementation struct and conformance assertion. -/
def c10Decls : List Decl :=
  [.genDecl .ttype [.typeSpec ⟨"Empty", .interfaceType []⟩]
    "type Empty interface" 20,
   .genDecl .ttype [.typeSpec ⟨"EmptyImpl", .structType⟩]
    "type EmptyImpl struct" 40,
   .genDecl .tvar [.valueSpec ⟨["_"], some "Empty",
     [.compositeLit (some "EmptyImpl")]⟩] "var _ Empty = EmptyImpl lit" 60]

/-- A complete witness file for the assembly claims: `Store` interface with
methods `Get` and `Put`, `StoreImpl` struct and a conformance assertion. -/
def storeDecls : List Decl :=
  [.genDecl .ttype [.typeSpec ⟨"Store", .interfaceType [["Get"], ["Put"]]⟩]
    "type Store interface" 20,
   .genDecl .ttype [.typeSpec ⟨"StoreImpl", .structType⟩]
    "type StoreImpl struct" 40,
   .genDecl .tvar [.valueSpec ⟨["_"], some "Store",
     [.compositeLit (some "StoreImpl")]⟩] "var _ Store = StoreImpl lit" 60]

/-- An oracle for the witness runs: fails exactly on method `Put`. -/
def failPutOracle (m : String) : Except GenErr GenerationResponse :=
  if m == "Put" then Except.error (GenErr.oracleErr m)
  else Except.ok ⟨"func Get", "", "// Get"⟩

/-- The oracle responses used by the C3 witness. -/
def storeResponses (m : String) : GenerationResponse :=
  if m == "Get" then ⟨"func Get impl", "\"fmt\"", "// Get fetches"⟩
  else ⟨"func Put impl", "\"fmt\"\n\"time\"", "  "⟩

/-- The two fragments of the import-merge example: import line lists
`a`, `b` and `b`, `c`. -/
def fragAB : GenerationResponse := ⟨"", "a\nb", ""⟩

/-- Companion fragment of `fragAB` for the import-merge example. -/
def fragBC : GenerationResponse := ⟨"", "b\nc", ""⟩

/-- A parsed configuration document whose queries list already contains the
reference `"r"` twice. -/
def cfgDup : List (String × YamlVal) :=
  [("sql", .list [.map [("queries", .list [.str "r", .str "r"])]])]

/-- A parsed configuration document without any top-level `sql` key. -/
def cfgNoSql : List (String × YamlVal) := [("version", .str "2")]

/-- A well-formed configuration document for the merge witnesses. -/
def cfgOk : List (String × YamlVal) :=
  [("version", .str "2"),
   ("sql", .list [.map [("schema", .str "schema.sql"),
     ("queries", .list [.str "query/existing.sql"])]])]

/-- A qualifying entity file for the catalog witness: type `User` and
constructor `NewUser` present, an import declaration to be excluded, and a
trailing helper function past the constructor's end offset. -/
def userFile : SrcFile :=
  ⟨"user.go", "pkg/domain/entity/user.go",
   [.genDecl .timport [.importSpec] "import clause" 5,
    .genDecl .ttype [.typeSpec ⟨"User", .structType⟩] "type User struct" 20,
    .funcDecl "NewUser" "func NewUser()" 40,
    .funcDecl "Helper" "func Helper()" 60]⟩

/-- A non-qualifying entity file: type `Orphan` but no `NewOrphan`. -/
def orphanFile : SrcFile :=
  ⟨"orphan.go", "pkg/domain/entity/orphan.go",
   [.genDecl .ttype [.typeSpec ⟨"Orphan", .structType⟩]
     "type Orphan struct" 20]⟩

/-- The document `cfgOk` after merging the reference `query/new.sql`. -/
def cfgOkAfter : List (String × YamlVal) :=
  [("version", .str "2"),
   ("sql", .list [.map [("schema", .str "schema.sql"),
     ("queries", .list [.str "query/existing.sql", .str "query/new.sql"])]])]

/-! ## Scan lemmas shared by several claims -/

theorem findInterfaceSpec_isSome (specs : List Spec) :
    (findInterfaceSpec specs).isSome = specs.any specIsInterface := by
  induction specs with
  | nil => rfl
  | cons s rest ih =>
    cases s with
    | typeSpec ts =>
      cases hty : ts.ty <;>
        simp [findInterfaceSpec, specIsInterface, List.any_cons, hty, ih]
    | valueSpec vs => simp [findInterfaceSpec, specIsInterface, List.any_cons, ih]
    | importSpec => simp [findInterfaceSpec, specIsInterface, List.any_cons, ih]
    | otherSpec => simp [findInterfaceSpec, specIsInterface, List.any_cons, ih]

theorem findFirstInterface_cons_of_not (d : Decl) (rest : List Decl)
    (h : declHasInterface d = false) :
    findFirstInterface (d :: rest) = findFirstInterface rest := by
  cases d with
  | genDecl tok specs src e =>
    cases tok with
    | ttype =>
      have hnone : findInterfaceSpec specs = none := by
        have := findInterfaceSpec_isSome specs
        rw [declHasInterface] at h
        rw [h] at this
        exact Option.not_isSome_iff_eq_none.mp (by simp [this])
      simp [findFirstInterface, hnone]
    | timport => simp [findFirstInterface]
    | tconst => simp [findFirstInterface]
    | tvar => simp [findFirstInterface]
  | funcDecl n src e => simp [findFirstInterface]
  | badDecl src e => simp [findFirstInterface]

theorem findFirstInterface_cons_of_has (d : Decl) (rest : List Decl)
    (h : declHasInterface d = true) :
    findFirstInterface (d :: rest) = findFirstInterface [d] ∧
      (findFirstInterface [d]).isSome = true := by
  cases d with
  | genDecl tok specs src e =>
    cases tok with
    | ttype =>
      rw [declHasInterface] at h
      have hsome : (findInterfaceSpec specs).isSome = true := by
        rw [findInterfaceSpec_isSome, h]
      obtain ⟨ts, hts⟩ := Option.isSome_iff_exists.mp hsome
      simp [findFirstInterface, hts]
    | timport => simp [declHasInterface] at h
    | tconst => simp [declHasInterface] at h
    | tvar => simp [declHasInterface] at h
  | funcDecl n src e => simp [declHasInterface] at h
  | badDecl src e => simp [declHasInterface] at h

theorem findFirstInterface_eq_none (decls : List Decl)
    (h : ∀ d ∈ decls, declHasInterface d = false) :
    findFirstInterface decls = none := by
  induction decls with
  | nil => rfl
  | cons d rest ih =>
    rw [findFirstInterface_cons_of_not d rest (h d (List.mem_cons_self d rest))]
    exact ih (fun d' hd' => h d' (List.mem_cons_of_mem d hd'))

theorem findImplStruct_isSome (target : String) (decls : List Decl) :
    (findImplStruct target decls).isSome = hasImplStruct target decls := by
  induction decls with
  | nil => rfl
  | cons d rest ih =>
    cases d with
    | genDecl tok specs src e =>
      cases tok with
      | ttype =>
        by_cases hs : specs.any (specIsStructNamed target) = true <;>
          simp [findImplStruct, hasImplStruct, List.any_cons, hs, ih,
            hasImplStruct] at ih ⊢ <;> simp [ih]
      | timport => simp [findImplStruct, hasImplStruct, List.any_cons] at ih ⊢; simp [ih]
      | tconst => simp [findImplStruct, hasImplStruct, List.any_cons] at ih ⊢; simp [ih]
      | tvar => simp [findImplStruct, hasImplStruct, List.any_cons] at ih ⊢; simp [ih]
    | funcDecl n src e => simp [findImplStruct, hasImplStruct, List.any_cons] at ih ⊢; simp [ih]
    | badDecl src e => simp [findImplStruct, hasImplStruct, List.any_cons] at ih ⊢; simp [ih]

theorem findVarCheck_isSome (iname target : String) (decls : List Decl) :
    (findVarCheck iname target decls).isSome = hasAssertion iname target decls := by
  induction decls with
  | nil => rfl
  | cons d rest ih =>
    cases d with
    | genDecl tok specs src e =>
      cases tok with
      | tvar =>
        by_cases hs : specs.any (specIsAssertion iname target) = true <;>
          simp [findVarCheck, hasAssertion, List.any_cons, hs] at ih ⊢ <;> simp [ih]
      | timport => simp [findVarCheck, hasAssertion, List.any_cons] at ih ⊢; simp [ih]
      | tconst => simp [findVarCheck, hasAssertion, List.any_cons] at ih ⊢; simp [ih]
      | ttype => simp [findVarCheck, hasAssertion, List.any_cons] at ih ⊢; simp [ih]
    | funcDecl n src e => simp [findVarCheck, hasAssertion, List.any_cons] at ih ⊢; simp [ih]
    | badDecl src e => simp [findVarCheck, hasAssertion, List.any_cons] at ih ⊢; simp [ih]

/-! ## Claim theorems -/

/-- Claim C1: for every successfully parsed file, extraction selects the first
type declaration in file order whose underlying type is an interface kind —
the result over `pre ++ d :: post` equals the result over `[d]` alone, so all
later interface declarations are ignored — and a file containing no
interface-kind type declaration makes `ExtractFirstInterface` fail with the
no-interface-found error. -/
theorem extraction_selects_first_interface :
    (∀ (pre : List Decl) (d : Decl) (post : List Decl),
        (∀ d' ∈ pre, declHasInterface d' = false) →
        declHasInterface d = true →
        findFirstInterface (pre ++ d :: post) = findFirstInterface [d] ∧
          (findFirstInterface (pre ++ d :: post)).isSome = true) ∧
    (∀ decls : List Decl,
        (∀ d' ∈ decls, declHasInterface d' = false) →
        ExtractFirstInterface decls = Except.error ExtractErr.noInterfaceFound) := by
  constructor
  · intro pre d post hpre hd
    induction pre with
    | nil =>
      obtain ⟨heq, hsome⟩ := findFirstInterface_cons_of_has d post hd
      rw [List.nil_append]
      exact ⟨heq, by rw [heq]; exact hsome⟩
    | cons p ps ih =>
      have hp : declHasInterface p = false := hpre p (List.mem_cons_self p ps)
      have hrest : ∀ d' ∈ ps, declHasInterface d' = false :=
        fun d' hd' => hpre d' (List.mem_cons_of_mem p hd')
      have hstep : findFirstInterface ((p :: ps) ++ d :: post) =
          findFirstInterface (ps ++ d :: post) := by
        rw [List.cons_append]
        exact findFirstInterface_cons_of_not p (ps ++ d :: post) hp
      obtain ⟨heq, hsome⟩ := ih hrest
      exact ⟨hstep.trans heq, by rw [hstep]; exact hsome⟩
  · intro decls h
    have hnone := findFirstInterface_eq_none decls h
    simp [ExtractFirstInterface, hnone]

/-- Witness for C1 at a concrete file: a helper function, then the `Store`
interface, then a later `Other` interface that is ignored; and a concrete
interface-free file failing with the no-interface-found error. -/
theorem extraction_selects_first_interface_witness :
    (findFirstInterface (c1Pre ++ c1Iface :: c1Post) = findFirstInterface [c1Iface] ∧
      (findFirstInterface (c1Pre ++ c1Iface :: c1Post)).isSome = true) ∧
    ExtractFirstInterface c1NoIface = Except.error ExtractErr.noInterfaceFound :=
  ⟨extraction_selects_first_interface.1 c1Pre c1Iface c1Post (by decide) (by decide),
   extraction_selects_first_interface.2 c1NoIface (by decide)⟩

/-- Claim C9: once an interface named `I` has been found, extraction succeeds
only if the file holds a struct-kind type declaration named `IImpl`
(`hasImplStruct` demands struct kind, so a type declaration named `IImpl` of
any other kind is treated as absent), and the absence of such a declaration is
the hard failure `implNotFound`. -/
theorem impl_struct_required :
    ∀ (decls : List Decl) (src : String) (ts : TypeSpec),
      findFirstInterface decls = some (src, ts) →
      (exceptIsOk (ExtractFirstInterface decls) = true →
          hasImplStruct (ts.name ++ "Impl") decls = true) ∧
        (hasImplStruct (ts.name ++ "Impl") decls = false →
          ExtractFirstInterface decls = Except.error ExtractErr.implNotFound) := by
  intro decls src ts h
  constructor
  · intro hok
    cases hfi : findImplStruct (ts.name ++ "Impl") decls with
    | none => simp [ExtractFirstInterface, h, hfi, exceptIsOk] at hok
    | some implSrc =>
      have := findImplStruct_isSome (ts.name ++ "Impl") decls
      rw [hfi] at this
      simpa using this.symm
  · intro habs
    have hnone : findImplStruct (ts.name ++ "Impl") decls = none := by
      have := findImplStruct_isSome (ts.name ++ "Impl") decls
      rw [habs] at this
      exact Option.not_isSome_iff_eq_none.mp (by simp [this])
    simp [ExtractFirstInterface, h, hnone]

/-- Witness for C9 at a concrete file: `Store` interface present, but
`StoreImpl` is declared with a non-struct underlying type, so it is treated as
absent and extraction fails with `implNotFound`. -/
theorem impl_struct_required_witness :
    ExtractFirstInterface c9Decls = Except.error ExtractErr.implNotFound :=
  (impl_struct_required c9Decls "type Store interface"
    ⟨"Store", .interfaceType [["Get"]]⟩ (by decide)).2 (by decide)

/-- Claim C8: the conformance assertion is recognized only as a top-level
`var` declaration with a discarded name `_`, declared type identifier equal to
the interface name, and initializer a composite literal of exactly the
implementation-struct type (the iff in the last conjunct spells out this exact
shape, so pointer literals or different names are rejected); when an interface
and the `Impl` struct were found but no declaration of that shape exists,
extraction fails hard with `assertionNotFound`. -/
theorem conformance_assertion_shape :
    ∀ (decls : List Decl) (src : String) (ts : TypeSpec),
      findFirstInterface decls = some (src, ts) →
      (exceptIsOk (ExtractFirstInterface decls) = true →
          hasAssertion ts.name (ts.name ++ "Impl") decls = true) ∧
        (hasAssertion ts.name (ts.name ++ "Impl") decls = false →
          hasImplStruct (ts.name ++ "Impl") decls = true →
          ExtractFirstInterface decls = Except.error ExtractErr.assertionNotFound) ∧
        (∀ vs : ValueSpec,
          valueSpecIsAssertion ts.name (ts.name ++ "Impl") vs = true ↔
            ("_" ∈ vs.names ∧ vs.tyName = some ts.name ∧
              ∃ rest, vs.values =
                Expr.compositeLit (some (ts.name ++ "Impl")) :: rest)) := by
  intro decls src ts h
  refine ⟨?_, ?_, ?_⟩
  · intro hok
    cases hfi : findImplStruct (ts.name ++ "Impl") decls with
    | none => simp [ExtractFirstInterface, h, hfi, exceptIsOk] at hok
    | some implSrc =>
      cases hfv : findVarCheck ts.name (ts.name ++ "Impl") decls with
      | none => simp [ExtractFirstInterface, h, hfi, hfv, exceptIsOk] at hok
      | some varSrc =>
        have := findVarCheck_isSome ts.name (ts.name ++ "Impl") decls
        rw [hfv] at this
        simpa using this.symm
  · intro habs himpl
    have hsome : (findImplStruct (ts.name ++ "Impl") decls).isSome = true := by
      rw [findImplStruct_isSome, himpl]
    obtain ⟨implSrc, hfi⟩ := Option.isSome_iff_exists.mp hsome
    have hnone : findVarCheck ts.name (ts.name ++ "Impl") decls = none := by
      have := findVarCheck_isSome ts.name (ts.name ++ "Impl") decls
      rw [habs] at this
      exact Option.not_isSome_iff_eq_none.mp (by simp [this])
    simp [ExtractFirstInterface, h, hfi, hnone]
  · intro vs
    unfold valueSpecIsAssertion
    constructor
    · intro hv
      rw [Bool.and_eq_true, Bool.and_eq_true] at hv
      obtain ⟨⟨hn, hty⟩, hval⟩ := hv
      refine ⟨?_, ?_, ?_⟩
      · obtain ⟨x, hx, hxe⟩ := List.any_eq_true.mp hn
        exact (beq_iff_eq.mp hxe) ▸ hx
      · exact beq_iff_eq.mp hty
      · cases hvs : vs.values with
        | nil => rw [hvs] at hval; simp at hval
        | cons e rest =>
          rw [hvs] at hval
          cases e with
          | compositeLit tn =>
            cases tn with
            | none => simp at hval
            | some n =>
              have : n = ts.name ++ "Impl" := by simpa using hval
              exact ⟨rest, by rw [this]⟩
          | otherExpr => simp at hval
    · intro ⟨hn, hty, rest, hval⟩
      rw [Bool.and_eq_true, Bool.and_eq_true]
      refine ⟨⟨?_, ?_⟩, ?_⟩
      · exact List.any_eq_true.mpr ⟨"_", hn, by simp⟩
      · rw [hty]; simp
      · rw [hval]; simp

/-- Witness for C8 at a concrete file: the assertion's initializer is a
pointer literal (`otherExpr`), which the exact-shape scan rejects, so
extraction fails with `assertionNotFound`; and the shape iff evaluated at that
value spec. -/
theorem conformance_assertion_shape_witness :
    ExtractFirstInterface c8Decls = Except.error ExtractErr.assertionNotFound ∧
      ¬ ("_" ∈ (["_"] : List String) ∧ (some "Store" : Option String) = some "Store" ∧
        ∃ rest, ([Expr.otherExpr] : List Expr) =
          Expr.compositeLit (some ("Store" ++ "Impl")) :: rest) := by
  have hmain := conformance_assertion_shape c8Decls "type Store interface"
    ⟨"Store", .interfaceType [["Get"]]⟩ (by decide)
  refine ⟨hmain.2.1 (by decide) (by decide), ?_⟩
  intro ⟨_, _, rest, hval⟩
  simp at hval

/-- Claim C10: a parsed file whose first interface declares zero method names
(while having a matching `Impl` struct and conformance assertion, so that
`ExtractFirstInterface` itself succeeds with an empty method list) is rejected
by the SQL-generation entry point with the no-methods error; the result does
not depend on the oracle (which is therefore never consulted) and no output
file is written. -/
theorem zero_methods_rejected :
    ∀ (decls : List Decl) (r : Extracted),
      ExtractFirstInterface decls = Except.ok r → r.methods = [] →
      ∀ (oracle oracle' : String → Except SqlErr (List String))
        (orig : Option String),
        generateSQLLogic oracle decls = Except.error SqlErr.noMethodsFound ∧
          generateSQLLogic oracle decls = generateSQLLogic oracle' decls ∧
          sqlOutputFileState orig (generateSQLLogic oracle decls) = orig := by
  intro decls r hok hm oracle oracle' orig
  have hlogic : ∀ o : String → Except SqlErr (List String),
      generateSQLLogic o decls = Except.error SqlErr.noMethodsFound := by
    intro o
    unfold generateSQLLogic extractInterfaceDataSQL
    rw [hok]
    simp [hm]
  refine ⟨hlogic oracle, (hlogic oracle).trans (hlogic oracle').symm, ?_⟩
  rw [hlogic oracle]
  rfl

/-- Witness for C10 at the concrete zero-method file `c10Decls`, with two
different oracles (one always succeeding, one always failing) and no
pre-existing output file. -/
theorem zero_methods_rejected_witness :
    generateSQLLogic (fun _ => Except.ok ["SELECT 1"]) c10Decls =
        Except.error SqlErr.noMethodsFound ∧
      generateSQLLogic (fun _ => Except.ok ["SELECT 1"]) c10Decls =
        generateSQLLogic (fun m => Except.error (SqlErr.oracleErr m)) c10Decls ∧
      sqlOutputFileState none
        (generateSQLLogic (fun _ => Except.ok ["SELECT 1"]) c10Decls) = none :=
  zero_methods_rejected c10Decls
    ⟨"type Empty interface", [], "type EmptyImpl struct",
      "var _ Empty = EmptyImpl lit"⟩ rfl rfl _ _ none

/-! ## Generation-loop lemmas -/

theorem runGeneration_error_of_mem
    (oracle : String → Except GenErr GenerationResponse)
    (methods : List String) (m : String) (e : GenErr)
    (hm : m ∈ methods) (he : oracle m = Except.error e) :
    ∃ e', runGeneration oracle methods = Except.error e' := by
  induction methods with
  | nil => cases hm
  | cons m₀ rest ih =>
    rcases List.mem_cons.mp hm with rfl | hmem
    · exact ⟨e, by simp [runGeneration, he]⟩
    · cases ho : oracle m₀ with
      | error e₀ => exact ⟨e₀, by simp [runGeneration, ho]⟩
      | ok r =>
        obtain ⟨e', he'⟩ := ih hmem
        exact ⟨e', by simp [runGeneration, ho, he']⟩

theorem runGeneration_ok_all
    (oracle : String → Except GenErr GenerationResponse)
    (methods : List String) (p : List GenerationResponse × List String)
    (h : runGeneration oracle methods = Except.ok p) :
    ∀ m ∈ methods, ∃ r, oracle m = Except.ok r := by
  induction methods generalizing p with
  | nil => intro m hm; cases hm
  | cons m₀ rest ih =>
    intro m hm
    cases ho : oracle m₀ with
    | error e₀ => rw [runGeneration, ho] at h; cases h
    | ok r₀ =>
      rw [runGeneration, ho] at h
      cases hrec : runGeneration oracle rest with
      | error e => rw [hrec] at h; cases h
      | ok q =>
        rcases List.mem_cons.mp hm with rfl | hmem
        · exact ⟨r₀, ho⟩
        · exact ih q hrec m hmem

theorem runGeneration_map
    (oracle : String → Except GenErr GenerationResponse)
    (g : String → GenerationResponse) (methods : List String)
    (h : ∀ m ∈ methods, oracle m = Except.ok (g m)) :
    runGeneration oracle methods =
      Except.ok (methods.map g, collectImports (methods.map g)) := by
  induction methods with
  | nil => rfl
  | cons m₀ rest ih =>
    have h₀ := h m₀ (List.mem_cons_self m₀ rest)
    have hrest := ih (fun m hm => h m (List.mem_cons_of_mem m₀ hm))
    rw [runGeneration, h₀, hrest]
    simp [collectImports]

/-- Claim C4: whole-run atomicity of program generation. The target file is
overwritten only when every stage succeeded: if extraction fails, or the
oracle fails for any method of the contract, the run yields an error and
`programFileState` keeps the original bytes; conversely a successful run
implies every method's fragment had been obtained. -/
theorem program_generation_atomic :
    ∀ (oracle : String → Except GenErr GenerationResponse)
      (fmtExternal : String → Except GenErr String)
      (pkgName original : String) (decls : List Decl),
      ((∃ e, ExtractFirstInterface decls = Except.error e) →
          programFileState original
            (generateProgramRun oracle fmtExternal pkgName decls) = original) ∧
        (∀ r, ExtractFirstInterface decls = Except.ok r →
          (∃ m ∈ r.methods, ∃ e, oracle m = Except.error e) →
          programFileState original
            (generateProgramRun oracle fmtExternal pkgName decls) = original) ∧
        (∀ out, generateProgramRun oracle fmtExternal pkgName decls =
            Except.ok out →
          ∃ r, ExtractFirstInterface decls = Except.ok r ∧
            ∀ m ∈ r.methods, ∃ resp, oracle m = Except.ok resp) := by
  intro oracle fmtExternal pkgName original decls
  refine ⟨?_, ?_, ?_⟩
  · intro ⟨e, he⟩
    simp [generateProgramRun, he, programFileState]
  · intro r hr ⟨m, hm, e, he⟩
    obtain ⟨e', he'⟩ := runGeneration_error_of_mem oracle r.methods m e hm he
    simp [generateProgramRun, hr, he', programFileState]
  · intro out hout
    cases hex : ExtractFirstInterface decls with
    | error e => rw [generateProgramRun, hex] at hout; cases hout
    | ok r =>
      cases hrun : runGeneration oracle r.methods with
      | error e => simp [generateProgramRun, hex, hrun] at hout
      | ok p => exact ⟨r, rfl, runGeneration_ok_all oracle r.methods p hrun⟩

/-- Witness for C4: on `storeDecls` an oracle failing on `Put` leaves the
original file content untouched, and on the interface-free `c1NoIface` file
the extraction failure also leaves it untouched. -/
theorem program_generation_atomic_witness :
    programFileState "original bytes"
        (generateProgramRun failPutOracle Except.ok "infra" storeDecls) =
      "original bytes" ∧
    programFileState "original bytes"
        (generateProgramRun failPutOracle Except.ok "infra" c1NoIface) =
      "original bytes" :=
  ⟨(program_generation_atomic failPutOracle Except.ok "infra"
      "original bytes" storeDecls).2.1
      ⟨"type Store interface", ["Get", "Put"], "type StoreImpl struct",
        "var _ Store = StoreImpl lit"⟩ rfl
      ⟨"Put", by decide, GenErr.oracleErr "Put", rfl⟩,
   (program_generation_atomic failPutOracle Except.ok "infra"
      "original bytes" c1NoIface).1
      ⟨ExtractErr.noInterfaceFound, rfl⟩⟩

/-- Claim C3: in the assembled artifact the generated fragments appear in the
method-declaration order of the extracted interface contract — the methods are
exactly `methodNamesOf` of the first interface spec (member-declaration order,
one name per identifier), the collected responses are the oracle images of
those methods in that order, and the fragment section renders, per fragment,
the doc comment only when it is non-blank after trimming, followed by the code
text. -/
theorem fragments_follow_method_order :
    ∀ (oracle : String → Except GenErr GenerationResponse)
      (g : String → GenerationResponse) (pkgName : String)
      (decls : List Decl) (r : Extracted),
      ExtractFirstInterface decls = Except.ok r →
      (∀ m ∈ r.methods, oracle m = Except.ok (g m)) →
      (∃ src ts, findFirstInterface decls = some (src, ts) ∧
          r.methods = methodNamesOf ts) ∧
        generateProgramRun oracle Except.ok pkgName decls =
          Except.ok (buildFinalCode pkgName r.ifaceSrc r.implStructSrc
            r.varCheckSrc (r.methods.map g)
            (collectImports (r.methods.map g))) ∧
        fragmentsSection (r.methods.map g) =
          String.join (r.methods.map (fun m =>
            (if goTrim (g m).DocComment != "" then (g m).DocComment ++ "\n"
              else "") ++ (g m).Code ++ "\n\n")) := by
  intro oracle g pkgName decls r hok horacle
  refine ⟨?_, ?_, ?_⟩
  · cases hff : findFirstInterface decls with
    | none => simp [ExtractFirstInterface, hff] at hok
    | some p =>
      obtain ⟨src, ts⟩ := p
      refine ⟨src, ts, rfl, ?_⟩
      cases hfi : findImplStruct (ts.name ++ "Impl") decls with
      | none => simp [ExtractFirstInterface, hff, hfi] at hok
      | some implSrc =>
        cases hfv : findVarCheck ts.name (ts.name ++ "Impl") decls with
        | none => simp [ExtractFirstInterface, hff, hfi, hfv] at hok
        | some varSrc =>
          simp only [ExtractFirstInterface, hff, hfi, hfv,
            Except.ok.injEq] at hok
          rw [← hok]
  · simp [generateProgramRun, hok, runGeneration_map oracle g r.methods horacle]
  · rw [fragmentsSection, List.map_map]
    rfl

/-- Witness for C3 on `storeDecls`: the artifact collects `Get`'s fragment
before `Put`'s, and `Put`'s blank doc comment is dropped. -/
theorem fragments_follow_method_order_witness :
    (∃ src ts, findFirstInterface storeDecls = some (src, ts) ∧
        (["Get", "Put"] : List String) = methodNamesOf ts) ∧
      generateProgramRun (fun m => Except.ok (storeResponses m)) Except.ok
          "infra" storeDecls =
        Except.ok (buildFinalCode "infra" "type Store interface"
          "type StoreImpl struct" "var _ Store = StoreImpl lit"
          ((["Get", "Put"] : List String).map storeResponses)
          (collectImports ((["Get", "Put"] : List String).map storeResponses))) ∧
      fragmentsSection ((["Get", "Put"] : List String).map storeResponses) =
        String.join ((["Get", "Put"] : List String).map (fun m =>
          (if goTrim (storeResponses m).DocComment != "" then
            (storeResponses m).DocComment ++ "\n" else "") ++
            (storeResponses m).Code ++ "\n\n")) :=
  fragments_follow_method_order (fun m => Except.ok (storeResponses m))
    storeResponses "infra" storeDecls
    ⟨"type Store interface", ["Get", "Put"], "type StoreImpl struct",
      "var _ Store = StoreImpl lit"⟩ rfl (fun m _ => rfl)

/-! ## Import-merge lemmas -/

theorem mem_dedupKeys (l : List String) :
    ∀ a, a ∈ dedupKeys l ↔ a ∈ l := by
  induction l with
  | nil => intro a; simp [dedupKeys]
  | cons s rest ih =>
    intro a
    by_cases hs : s ∈ dedupKeys rest
    · have hs' : s ∈ rest := (ih s).mp hs
      simp only [dedupKeys, if_pos hs]
      constructor
      · intro h
        exact List.mem_cons_of_mem s ((ih a).mp h)
      · intro h
        rcases List.mem_cons.mp h with rfl | h'
        · exact (ih a).mpr hs'
        · exact (ih a).mpr h'
    · rw [dedupKeys]
      rw [if_neg hs]
      simp [ih, List.mem_cons]

theorem nodup_dedupKeys (l : List String) : (dedupKeys l).Nodup := by
  induction l with
  | nil => exact List.nodup_nil
  | cons s rest ih =>
    by_cases hs : s ∈ dedupKeys rest
    · simpa [dedupKeys, if_pos hs] using ih
    · simpa [dedupKeys, if_neg hs] using List.Nodup.cons hs ih

theorem collectImports_append (rs ss : List GenerationResponse) :
    collectImports (rs ++ ss) = collectImports rs ++ collectImports ss := by
  induction rs with
  | nil => rfl
  | cons r rest ih => simp [collectImports, ih]

theorem collectImports_perm (rs₁ rs₂ : List GenerationResponse)
    (h : List.Perm rs₁ rs₂) :
    List.Perm (collectImports rs₁) (collectImports rs₂) := by
  induction h with
  | nil => exact List.Perm.refl _
  | cons r _ ih => exact (List.Perm.append_left _ ih)
  | swap x y l =>
    show List.Perm
      (parseImportBlock y.Import ++ (parseImportBlock x.Import ++ collectImports l))
      (parseImportBlock x.Import ++ (parseImportBlock y.Import ++ collectImports l))
    rw [← List.append_assoc, ← List.append_assoc]
    exact List.Perm.append_right _ (List.perm_append_comm)
  | trans _ _ ih₁ ih₂ => exact ih₁.trans ih₂

theorem sorted_dedupSortImports (l : List String) :
    List.Sorted (· < ·) (dedupSortImports l) := by
  have hs : List.Sorted (· ≤ ·) (dedupSortImports l) :=
    List.sorted_insertionSort _ (dedupKeys l)
  have hn : (dedupSortImports l).Nodup :=
    (List.Perm.nodup_iff (List.perm_insertionSort _ (dedupKeys l))).mpr
      (nodup_dedupKeys l)
  exact List.Sorted.lt_of_le hs hn

theorem mem_dedupSortImports (a : String) (l : List String) :
    a ∈ dedupSortImports l ↔ a ∈ l :=
  (List.Perm.mem_iff
    (List.perm_insertionSort (fun x y => x ≤ y) (dedupKeys l))).trans
    (mem_dedupKeys l a)

theorem dedupSortImports_eq_of_mem_iff (l₁ l₂ : List String)
    (h : ∀ s, s ∈ l₁ ↔ s ∈ l₂) :
    dedupSortImports l₁ = dedupSortImports l₂ := by
  have hm : ∀ a, a ∈ dedupSortImports l₁ ↔ a ∈ dedupSortImports l₂ := by
    intro a
    rw [mem_dedupSortImports, mem_dedupSortImports]
    exact h a
  have hn₁ : (dedupSortImports l₁).Nodup :=
    (List.Perm.nodup_iff (List.perm_insertionSort _ (dedupKeys l₁))).mpr
      (nodup_dedupKeys l₁)
  have hn₂ : (dedupSortImports l₂).Nodup :=
    (List.Perm.nodup_iff (List.perm_insertionSort _ (dedupKeys l₂))).mpr
      (nodup_dedupKeys l₂)
  exact List.eq_of_perm_of_sorted
    ((List.perm_ext_iff_of_nodup hn₁ hn₂).mpr hm)
    (List.sorted_insertionSort _ (dedupKeys l₁))
    (List.sorted_insertionSort _ (dedupKeys l₂))

/-- Claim C2: the merged import list is the ascending lexicographic sorted
list of the distinct import lines collected (whitespace-trimmed) from all
fragments; it is independent of the order in which fragments are presented
and of fragment duplication, and on the fragments with lines `a`, `b` and
`b`, `c` it is exactly `a`, `b`, `c` in either presentation order. -/
theorem import_merge_sorted_dedup :
    (∀ rs : List GenerationResponse,
        List.Sorted (· < ·) (dedupSortImports (collectImports rs)) ∧
          ∀ s, s ∈ dedupSortImports (collectImports rs) ↔
            s ∈ collectImports rs) ∧
      (∀ rs₁ rs₂ : List GenerationResponse, List.Perm rs₁ rs₂ →
          dedupSortImports (collectImports rs₁) =
            dedupSortImports (collectImports rs₂)) ∧
      (∀ rs : List GenerationResponse,
          dedupSortImports (collectImports (rs ++ rs)) =
            dedupSortImports (collectImports rs)) ∧
      dedupSortImports (collectImports [fragAB, fragBC]) = ["a", "b", "c"] ∧
      dedupSortImports (collectImports [fragBC, fragAB]) = ["a", "b", "c"] := by
  refine ⟨?_, ?_, ?_, ?_, ?_⟩
  · intro rs
    exact ⟨sorted_dedupSortImports _, fun s => mem_dedupSortImports s _⟩
  · intro rs₁ rs₂ h
    exact dedupSortImports_eq_of_mem_iff _ _
      (fun s => List.Perm.mem_iff (collectImports_perm rs₁ rs₂ h))
  · intro rs
    refine dedupSortImports_eq_of_mem_iff _ _ (fun s => ?_)
    rw [collectImports_append]
    simp
  · have hc : collectImports [fragAB, fragBC] = ["a", "b", "b", "c"] := by
      decide
    have hd : dedupKeys ["a", "b", "b", "c"] = ["a", "b", "c"] := by decide
    rw [dedupSortImports, hc, hd]
    simp +decide [List.insertionSort, List.orderedInsert]
  · have hc : collectImports [fragBC, fragAB] = ["b", "c", "a", "b"] := by
      decide
    have hd : dedupKeys ["b", "c", "a", "b"] = ["c", "a", "b"] := by decide
    rw [dedupSortImports, hc, hd]
    simp +decide [List.insertionSort, List.orderedInsert]

/-- Witness for C2: the permutation-independence part applied to the concrete
two-fragment example (swapped presentation orders). -/
theorem import_merge_sorted_dedup_witness :
    dedupSortImports (collectImports [fragAB, fragBC]) =
      dedupSortImports (collectImports [fragBC, fragAB]) :=
  import_merge_sorted_dedup.2.1 [fragAB, fragBC] [fragBC, fragAB] (by decide)

/-! ## ConfigMerger lemmas -/

theorem lookupKey_setKey (k : String) (v : YamlVal)
    (l : List (String × YamlVal)) : lookupKey k (setKey k v l) = some v := by
  induction l with
  | nil => simp [setKey, lookupKey]
  | cons e rest ih =>
    obtain ⟨k₀, v₀⟩ := e
    by_cases hk : k₀ == k
    · simp [setKey, hk, lookupKey]
    · simp only [setKey, lookupKey, hk, Bool.false_eq_true, if_false]
      exact ih

theorem setKey_setKey (k : String) (v v' : YamlVal)
    (l : List (String × YamlVal)) :
    setKey k v (setKey k v' l) = setKey k v l := by
  induction l with
  | nil => simp [setKey]
  | cons e rest ih =>
    obtain ⟨k₀, v₀⟩ := e
    by_cases hk : k₀ == k
    · simp [setKey, hk]
    · simp only [setKey, hk, Bool.false_eq_true, if_false, List.cons.injEq,
        true_and]
      exact ih

theorem updateQueries_has (path : String) (qs : List YamlVal) :
    (updateQueries path qs).any (isRefStr path) = true := by
  by_cases h : qs.any (isRefStr path) = true
  · simp [updateQueries, h]
  · simp [updateQueries, h, List.any_append, isRefStr]

theorem updateQueries_idem (path : String) (qs : List YamlVal) :
    updateQueries path (updateQueries path qs) = updateQueries path qs := by
  rw [updateQueries, updateQueries_has path qs]
  simp

theorem updateBlock_idem (path : String) (b : YamlVal) :
    updateBlock path (updateBlock path b) = updateBlock path b := by
  cases b with
  | map entries =>
    cases hq : lookupKey "queries" entries with
    | none => simp [updateBlock, hq]
    | some v =>
      cases v with
      | list qs =>
        simp [updateBlock, hq, lookupKey_setKey, updateQueries_idem,
          setKey_setKey]
      | str s => simp [updateBlock, hq]
      | map m => simp [updateBlock, hq]
      | other => simp [updateBlock, hq]
  | str s => simp [updateBlock]
  | list xs => simp [updateBlock]
  | other => simp [updateBlock]

/-- Counterexample to claim C5 as stated: `cfgDup` is a well-formed document
(top-level `sql` list of mapping blocks with a string-list `queries` key)
whose queries list already contains the reference `"r"` twice; applying the
merge with `"r"` returns the document unchanged (hence applying it twice
too), so the qualifying list holds the reference twice, not exactly once. -/
theorem config_merge_not_exactly_once :
    updateSqlcConfig "r" cfgDup = Except.ok cfgDup ∧
      lookupKey "sql" cfgDup =
        some (YamlVal.list [YamlVal.map
          [("queries", YamlVal.list [YamlVal.str "r", YamlVal.str "r"])]]) ∧
      countRef "r" [YamlVal.str "r", YamlVal.str "r"] = 2 ∧
      ¬ countRef "r" [YamlVal.str "r", YamlVal.str "r"] = 1 :=
  ⟨rfl, rfl, rfl, by decide⟩

/-- Claim C5 (amended): applying the same reference twice is byte-identical to
applying it once — the second merge returns the first merge's document
unchanged, so any (deterministic) serializer produces the same bytes — and
each qualifying queries list contains the reference at least once afterwards,
and exactly once provided it contained it at most once beforehand. -/
theorem config_merge_idempotent :
    (∀ (path : String) (cfg cfg' : List (String × YamlVal)),
        updateSqlcConfig path cfg = Except.ok cfg' →
        updateSqlcConfig path cfg' = Except.ok cfg') ∧
      (∀ (path : String) (qs : List YamlVal),
        1 ≤ countRef path (updateQueries path qs)) ∧
      (∀ (path : String) (qs : List YamlVal),
        countRef path qs ≤ 1 → countRef path (updateQueries path qs) = 1) ∧
      (∀ (path : String) (cfg cfg' : List (String × YamlVal))
          (ser : List (String × YamlVal) → String) (orig₁ orig₂ : String),
        updateSqlcConfig path cfg = Except.ok cfg' →
        configMergeFileState ser orig₁ path cfg' =
          configMergeFileState ser orig₂ path cfg) := by
  have hidem : ∀ (path : String) (cfg cfg' : List (String × YamlVal)),
      updateSqlcConfig path cfg = Except.ok cfg' →
      updateSqlcConfig path cfg' = Except.ok cfg' := by
    intro path cfg cfg' h
    cases hl : lookupKey "sql" cfg with
    | none => rw [updateSqlcConfig, hl] at h; cases h
    | some v =>
      cases v with
      | list blocks =>
        rw [updateSqlcConfig, hl] at h
        have hc : cfg' =
            setKey "sql" (.list (blocks.map (updateBlock path))) cfg := by
          cases h; rfl
        have hmapmap : (blocks.map (updateBlock path)).map (updateBlock path) =
            blocks.map (updateBlock path) := by
          rw [List.map_map]
          exact List.map_congr_left
            (fun b _ => updateBlock_idem path b)
        rw [hc, updateSqlcConfig, lookupKey_setKey]
        simp only [hmapmap, setKey_setKey]
      | str s => rw [updateSqlcConfig, hl] at h; cases h
      | map m => rw [updateSqlcConfig, hl] at h; cases h
      | other => rw [updateSqlcConfig, hl] at h; cases h
  refine ⟨hidem, ?_, ?_, ?_⟩
  · intro path qs
    by_cases h : qs.any (isRefStr path) = true
    · obtain ⟨a, ha, hpa⟩ := List.any_eq_true.mp h
      rw [updateQueries, if_pos h]
      exact List.countP_pos_iff.mpr ⟨a, ha, hpa⟩
    · rw [updateQueries, if_neg h]
      simp only [countRef, List.countP_append]
      simp [List.countP_cons, isRefStr]
  · intro path qs hle
    by_cases h : qs.any (isRefStr path) = true
    · obtain ⟨a, ha, hpa⟩ := List.any_eq_true.mp h
      have hpos : 0 < countRef path qs := List.countP_pos_iff.mpr ⟨a, ha, hpa⟩
      have : countRef path qs = 1 := Nat.le_antisymm hle hpos
      rw [updateQueries, if_pos h]
      exact this
    · have hzero : countRef path qs = 0 := by
        rw [countRef, List.countP_eq_zero]
        intro a ha
        exact fun hpa => h (List.any_eq_true.mpr ⟨a, ha, hpa⟩)
      rw [updateQueries, if_neg h]
      simp only [countRef, List.countP_append]
      rw [countRef] at hzero
      simp [hzero, List.countP_cons, isRefStr]
  · intro path cfg cfg' ser orig₁ orig₂ h
    rw [configMergeFileState, configMergeFileState, h, hidem path cfg cfg' h]

/-- Witness for the amended C5 at a concrete document: re-applying the merge
to the already-merged `cfgOkAfter` leaves it unchanged, a fresh list gains the
reference once, a list holding it once keeps exactly one copy, and the
serialized state after the second run equals the state after the first. -/
theorem config_merge_idempotent_witness :
    updateSqlcConfig "query/new.sql" cfgOkAfter = Except.ok cfgOkAfter ∧
      1 ≤ countRef "query/new.sql" (updateQueries "query/new.sql" []) ∧
      countRef "query/new.sql" (updateQueries "query/new.sql"
        [YamlVal.str "query/existing.sql"]) = 1 ∧
      configMergeFileState (fun _ => "bytes") "o1" "query/new.sql" cfgOkAfter =
        configMergeFileState (fun _ => "bytes") "o2" "query/new.sql" cfgOk :=
  ⟨config_merge_idempotent.1 "query/new.sql" cfgOk cfgOkAfter rfl,
   config_merge_idempotent.2.1 "query/new.sql" [],
   config_merge_idempotent.2.2.1 "query/new.sql"
     [YamlVal.str "query/existing.sql"] (by decide),
   config_merge_idempotent.2.2.2 "query/new.sql" cfgOk cfgOkAfter
     (fun _ => "bytes") "o1" "o2" rfl⟩

/-- Claim C6: when the top-level `sql` key is absent or not list-shaped, the
merge fails hard with `invalidStructure` and the document file on disk keeps
its original bytes (no write-back happens on this failure path). -/
theorem invalid_config_structure :
    ∀ (path : String) (cfg : List (String × YamlVal)),
      sqlKeyIsList cfg = false →
      updateSqlcConfig path cfg = Except.error ConfigErr.invalidStructure ∧
        ∀ (ser : List (String × YamlVal) → String) (original : String),
          configMergeFileState ser original path cfg = original := by
  intro path cfg h
  rw [sqlKeyIsList] at h
  have herr : updateSqlcConfig path cfg =
      Except.error ConfigErr.invalidStructure := by
    cases hl : lookupKey "sql" cfg with
    | none => rw [updateSqlcConfig, hl]
    | some v =>
      cases v with
      | list xs => rw [hl] at h; simp at h
      | str s => rw [updateSqlcConfig, hl]
      | map m => rw [updateSqlcConfig, hl]
      | other => rw [updateSqlcConfig, hl]
  exact ⟨herr, fun ser original => by rw [configMergeFileState, herr]⟩

/-- Witness for C6 at a concrete document without a `sql` key: the merge
fails with `invalidStructure` and the on-disk bytes stay the original. -/
theorem invalid_config_structure_witness :
    updateSqlcConfig "query/a.sql" cfgNoSql =
        Except.error ConfigErr.invalidStructure ∧
      configMergeFileState (fun _ => "serialized") "original yaml"
        "query/a.sql" cfgNoSql = "original yaml" :=
  ⟨(invalid_config_structure "query/a.sql" cfgNoSql rfl).1,
   (invalid_config_structure "query/a.sql" cfgNoSql rfl).2
     (fun _ => "serialized") "original yaml"⟩

/-! ## EntityCatalogScanner lemmas -/

theorem extractEntity_fileName (f : SrcFile) (r : EntityDefinition)
    (h : extractEntityFromFile f = some r) : r.FileName = f.path := by
  rw [extractEntityFromFile] at h
  by_cases hgo : isGoSourceFile f.name
  · rw [hgo] at h
    simp only [Bool.not_true, Bool.false_eq_true, if_false] at h
    by_cases hbase : trimSuffixGo f.name ".go" == ""
    · rw [if_pos hbase] at h; cases h
    · rw [if_neg hbase] at h
      by_cases hty :
          hasEntityType (entityNameOf (trimSuffixGo f.name ".go")) f.decls
      · rw [if_pos hty] at h
        cases hnf : findNewFunc
            ("New" ++ entityNameOf (trimSuffixGo f.name ".go")) f.decls with
        | none => rw [hnf] at h; cases h
        | some nf =>
          rw [hnf] at h
          cases h
          rfl
      · rw [if_neg hty] at h; cases h
  · simp only [Bool.not_eq_true] at hgo
    rw [hgo] at h
    simp at h

theorem recordCountFor_eq_zero (files : List SrcFile) (p : String)
    (h : ∀ f' ∈ files, f'.path ≠ p) :
    recordCountFor (ExtractEntityDefinitions files) p = 0 := by
  induction files with
  | nil => rfl
  | cons g rest ih =>
    have hg : g.path ≠ p := h g (List.mem_cons_self g rest)
    have hrest := ih (fun f' hf' => h f' (List.mem_cons_of_mem g hf'))
    cases hge : extractEntityFromFile g with
    | none =>
      rw [ExtractEntityDefinitions, List.filterMap_cons_none hge]
      exact hrest
    | some r =>
      have hfn : r.FileName = g.path := extractEntity_fileName g r hge
      have hpr : (r.FileName == p) = false := by
        rw [hfn]
        exact beq_eq_false_iff_ne.mpr hg
      rw [ExtractEntityDefinitions, List.filterMap_cons_some hge]
      rw [recordCountFor, List.countP_cons, hpr]
      simp only [Bool.false_eq_true, if_false, Nat.add_zero]
      exact hrest

/-- Claim C7: a scanned `.go`, non-test file with a nonempty base name yields
a catalog record iff it declares both a top-level type named after the file
(first letter upper-cased) and a constructor `New<Entity>`; the record's code
is exactly `entityCode` — the declarations ending at or before the (last)
constructor's end offset, imports excluded, in original order — and under
distinct file paths the whole catalog holds exactly one record for the file
when it qualifies and none otherwise. A non-qualifying file produces `none`,
never an error (the extraction is total). -/
theorem entity_record_characterization :
    ∀ f : SrcFile,
      isGoSourceFile f.name = true →
      trimSuffixGo f.name ".go" ≠ "" →
      ((extractEntityFromFile f).isSome = true ↔
          hasEntityType (entityNameOf (trimSuffixGo f.name ".go")) f.decls =
              true ∧
            (findNewFunc ("New" ++ entityNameOf (trimSuffixGo f.name ".go"))
              f.decls).isSome = true) ∧
        (∀ nf,
          hasEntityType (entityNameOf (trimSuffixGo f.name ".go")) f.decls =
              true →
          findNewFunc ("New" ++ entityNameOf (trimSuffixGo f.name ".go"))
              f.decls = some nf →
          extractEntityFromFile f =
            some ⟨f.path, entityCode f.decls nf.endOff⟩) ∧
        (∀ files : List SrcFile,
          List.Pairwise (fun a b => a.path ≠ b.path) files →
          f ∈ files →
          recordCountFor (ExtractEntityDefinitions files) f.path =
            if (extractEntityFromFile f).isSome then 1 else 0) := by
  intro f hgo hbase
  have hbase' : (trimSuffixGo f.name ".go" == "") = false :=
    beq_eq_false_iff_ne.mpr hbase
  refine ⟨?_, ?_, ?_⟩
  · constructor
    · intro hsome
      by_cases hty :
          hasEntityType (entityNameOf (trimSuffixGo f.name ".go")) f.decls
      · refine ⟨hty, ?_⟩
        cases hnf : findNewFunc
            ("New" ++ entityNameOf (trimSuffixGo f.name ".go")) f.decls with
        | none =>
          rw [extractEntityFromFile, hgo] at hsome
          simp only [Bool.not_true, Bool.false_eq_true, if_false, hbase',
            if_pos hty, hnf] at hsome
          simp at hsome
        | some nf => rfl
      · rw [extractEntityFromFile, hgo] at hsome
        simp only [Bool.not_true, Bool.false_eq_true, if_false, hbase',
          if_neg hty] at hsome
        simp at hsome
    · intro ⟨hty, hnfs⟩
      obtain ⟨nf, hnf⟩ := Option.isSome_iff_exists.mp hnfs
      rw [extractEntityFromFile, hgo]
      simp only [Bool.not_true, Bool.false_eq_true, if_false, hbase',
        if_pos hty, hnf]
      rfl
  · intro nf hty hnf
    rw [extractEntityFromFile, hgo]
    simp only [Bool.not_true, Bool.false_eq_true, if_false, hbase',
      if_pos hty, hnf]
  · intro files hpw hf
    induction files with
    | nil => cases hf
    | cons g rest ih =>
      obtain ⟨hghd, hptail⟩ := List.pairwise_cons.mp hpw
      rcases List.mem_cons.mp hf with rfl | hfr
      · have hzero : recordCountFor (ExtractEntityDefinitions rest) f.path =
            0 :=
          recordCountFor_eq_zero rest f.path
            (fun f' hf' => (hghd f' hf').symm)
        cases hge : extractEntityFromFile f with
        | none =>
          rw [ExtractEntityDefinitions, List.filterMap_cons_none hge]
          rw [recordCountFor, ExtractEntityDefinitions] at hzero
          simpa [recordCountFor] using hzero
        | some r =>
          have hfn : r.FileName = f.path := extractEntity_fileName f r hge
          have hpr : (r.FileName == f.path) = true := by
            rw [hfn]; exact beq_self_eq_true f.path
          rw [ExtractEntityDefinitions, List.filterMap_cons_some hge]
          rw [recordCountFor, List.countP_cons, hpr]
          rw [recordCountFor, ExtractEntityDefinitions] at hzero
          simp [hzero]
      · have hgp : g.path ≠ f.path := hghd f hfr
        have hres := ih hptail hfr
        cases hge : extractEntityFromFile g with
        | none =>
          rw [ExtractEntityDefinitions, List.filterMap_cons_none hge]
          exact hres
        | some r =>
          have hfn : r.FileName = g.path := extractEntity_fileName g r hge
          have hpr : (r.FileName == f.path) = false := by
            rw [hfn]; exact beq_eq_false_iff_ne.mpr hgp
          rw [ExtractEntityDefinitions, List.filterMap_cons_some hge]
          rw [recordCountFor, List.countP_cons, hpr]
          rw [recordCountFor, ExtractEntityDefinitions] at hres
          simp [hres]

/-- Witness for C7: the qualifying `user.go` file yields the record with
exactly the pre-constructor, import-free code, and in the two-file catalog the
qualifying file has exactly one record while the constructor-less `orphan.go`
has none. -/
theorem entity_record_characterization_witness :
    extractEntityFromFile userFile =
        some ⟨"pkg/domain/entity/user.go",
          entityCode userFile.decls 40⟩ ∧
      recordCountFor (ExtractEntityDefinitions [userFile, orphanFile])
          "pkg/domain/entity/user.go" =
        (if (extractEntityFromFile userFile).isSome then 1 else 0) ∧
      recordCountFor (ExtractEntityDefinitions [userFile, orphanFile])
          "pkg/domain/entity/orphan.go" =
        (if (extractEntityFromFile orphanFile).isSome then 1 else 0) :=
  ⟨(entity_record_characterization userFile (by decide) (by decide)).2.1
      (Decl.funcDecl "NewUser" "func NewUser()" 40) (by decide) (by decide),
   (entity_record_characterization userFile (by decide) (by decide)).2.2
      [userFile, orphanFile] (by decide) (by decide),
   (entity_record_characterization orphanFile (by decide) (by decide)).2.2
      [userFile, orphanFile] (by decide) (by decide)⟩

end LlmSqlc
